import Mathlib

/-!
Verification of the amethyst shaded render pass
(amethyst_renderer/src/pass/shaded/{interleaved,separate}.rs).

The pass is embedded shallowly: the entity/component scene is a record of
partial maps, matrices are exact 4x4 rational matrices, and a frame of
`apply` is a fold over the drawable entities producing a trace of GPU
events (constant-buffer updates, draws).  Rust panics (the `unwrap` calls
on matrix inversion and texture lookup) are `none`; a skipped entity is
`some` with an empty event list.
-/

set_option maxHeartbeats 1000000
set_option maxRecDepth 100000

namespace Shaded

abbrev Entity := Nat
abbrev MeshHandle := Nat
abbrev TexHandle := Nat
abbrev VBuf := Nat

/-- Exact 4x4 matrices stand in for cgmath `Matrix4<f32>`. -/
abbrev Mat4 := Matrix (Fin 4) (Fin 4) ℚ

/-- Rust `len as i32`: the vector length reduced into the i32 range. -/
def i32ofNat (n : Nat) : Int :=
  if n % 2 ^ 32 < 2 ^ 31 then ((n % 2 ^ 32 : Nat) : Int)
  else ((n % 2 ^ 32 : Nat) : Int) - 2 ^ 32

/-- Modelled from the spec: the pad helper (a pass utility whose source is
not among the files at hand) pads a 3-float vector to 4-float alignment.
The padding value is irrelevant to every claim. -/
def pad (v : ℚ × ℚ × ℚ) : ℚ × ℚ × ℚ × ℚ := (v.1, v.2.1, v.2.2, 1)

/-- light::PointLight, the fields the pass reads. -/
structure PointLight where
  center : ℚ × ℚ × ℚ
  color : ℚ × ℚ × ℚ
  intensity : ℚ
deriving DecidableEq

/-- light::DirectionalLight, the fields the pass reads. -/
structure DirectionalLight where
  color : ℚ × ℚ × ℚ
  direction : ℚ × ℚ × ℚ
deriving DecidableEq

/-- light::Light component: a tagged union of light kinds. -/
inductive Light where
  | point (l : PointLight)
  | directional (l : DirectionalLight)
deriving DecidableEq

/-- GPU record packed per point light. -/
structure PointLightPod where
  position : ℚ × ℚ × ℚ × ℚ
  color : ℚ × ℚ × ℚ × ℚ
  intensity : ℚ
deriving DecidableEq

/-- GPU record packed per directional light. -/
structure DirectionalLightPod where
  color : ℚ × ℚ × ℚ × ℚ
  direction : ℚ × ℚ × ℚ × ℚ
deriving DecidableEq

/-- Per-frame constant block: the two light counts (Rust i32). -/
structure FragmentArgs where
  point_light_count : Int
  directional_light_count : Int
deriving DecidableEq

/-- Per-draw constant block: projection, view and model matrices. -/
structure VertexArgs where
  proj : Mat4
  view : Mat4
  model : Mat4

/-- cam::Camera, the field the pass reads. -/
structure Camera where
  proj : Mat4

/-- amethyst_core Transform: a wrapped global 4x4 matrix.  Entry `(i, j)`
is row `i`, column `j`; cgmath column-major access `t.0[c][r]` is
`matrix r c`. -/
structure Transform where
  matrix : Mat4

/-- mtl::Material, the two texture slots the shaded pass reads. -/
structure Material where
  albedo : TexHandle
  emission : TexHandle
deriving DecidableEq

/-- A loaded texture: an opaque view and sampler, cloned on binding. -/
structure Texture where
  view : Nat
  sampler : Nat
deriving DecidableEq

/-- Keys for `Mesh::buffer`: the interleaved position-normal-texcoord
query of `DrawShaded<V>` and the five separate attribute queries of
`DrawShadedSeparate`. -/
inductive AttrKey where
  | interleavedPNT
  | position
  | normal
  | texCoord
  | jointIds
  | jointWeights
deriving DecidableEq

/-- A loaded mesh: its per-attribute vertex buffers and its slice. -/
structure Mesh where
  buffer : AttrKey → Option VBuf
  slice : Nat

/-- skinning::JointTransforms component: a bank of skinning matrices. -/
structure JointTransforms where
  matrices : List Mat4

/-- The data `apply` fetches from the world: component storages as partial
maps over entities, the two asset storages, and the scene resources.
`entities` fixes the (stable) iteration order of every storage join. -/
structure Scene where
  entities : List Entity
  activeCamera : Option Entity
  camera : Entity → Option Camera
  transform : Entity → Option Transform
  light : Entity → Option Light
  meshHandle : Entity → Option MeshHandle
  material : Entity → Option Material
  joints : Entity → Option JointTransforms
  ambient : ℚ × ℚ × ℚ
  meshStorage : MeshHandle → Option Mesh
  texStorage : TexHandle → Option Texture
  materialDefaults : Material

/-- The pass-local binding state `effect.data`: textures, samplers and
vertex buffers pushed for the pending draw. -/
structure EffectData where
  textures : List Nat
  samplers : List Nat
  vertex_bufs : List VBuf
deriving DecidableEq

/-- Modelled from the spec: `Effect::clear` (whose source is not among the
files at hand) clears all per-draw bindings before the next entity. -/
def EffectData.clear : EffectData := ⟨[], [], []⟩

/-- Modelled from the spec: `Effect::update_buffer` (whose source is not
among the files at hand) uploads into a constant buffer of fixed declared
capacity, truncating excess records beyond capacity. -/
def uploadTruncated (capacity : Nat) (data : List α) : List α :=
  data.take capacity

/-- One GPU-facing action of a frame.  Per-draw events carry the entity of
the loop iteration that issued them, identifying the draw they belong to. -/
inductive RenderEvent where
  | updateAmbient (v : ℚ × ℚ × ℚ)
  | updateCameraPosition (v : ℚ × ℚ × ℚ)
  | updateFragmentArgs (fa : FragmentArgs)
  | updatePointLights (ls : List PointLightPod)
  | updateDirectionalLights (ls : List DirectionalLightPod)
  | updateVertexArgs (e : Entity) (va : VertexArgs)
  | updateJointTransforms (e : Entity) (ms : List Mat4)
  | draw (e : Entity) (slice : Nat) (data : EffectData)

/-- The `(&camera, &global).join()` sequence: camera and transform pairs
in entity iteration order. -/
def joinCamTrans (s : Scene) : List (Camera × Transform) :=
  s.entities.filterMap fun e =>
    match s.camera e, s.transform e with
    | some c, some t => some (c, t)
    | _, _ => none

/-- Camera selection as `apply` performs it: the active-camera entity if
it has both components, else the head of the camera-transform join. -/
def resolveCamera (s : Scene) : Option (Camera × Transform) :=
  (s.activeCamera.bind fun e =>
    match s.camera e, s.transform e with
    | some c, some t => some (c, t)
    | _, _ => none).orElse fun _ => (joinCamTrans s).head?

/-- The camera_position global: the translation column of the resolved
camera transform, or the origin when no camera resolves. -/
def camPosGlobal (cam : Option (Camera × Transform)) : ℚ × ℚ × ℚ :=
  match cam with
  | some (_, t) => (t.matrix 0 3, t.matrix 1 3, t.matrix 2 3)
  | none => (0, 0, 0)

/-- The `light.join()` sequence: light components in iteration order. -/
def sceneLights (s : Scene) : List Light :=
  s.entities.filterMap s.light

/-- Pack every point light of the scene into a Pod record. -/
def pointLights (s : Scene) : List PointLightPod :=
  (sceneLights s).filterMap fun l =>
    match l with
    | Light.point p =>
        some { position := pad p.center, color := pad p.color,
               intensity := p.intensity }
    | _ => none

/-- Pack every directional light of the scene into a Pod record. -/
def directionalLights (s : Scene) : List DirectionalLightPod :=
  (sceneLights s).filterMap fun l =>
    match l with
    | Light.directional d =>
        some { color := pad d.color, direction := pad d.direction }
    | _ => none

/-- The per-frame FragmentArgs: the packed vector lengths as i32. -/
def fragmentArgs (s : Scene) : FragmentArgs :=
  { point_light_count := i32ofNat (pointLights s).length,
    directional_light_count := i32ofNat (directionalLights s).length }

/-- The frame-setup uploads both pass variants perform before the entity
loop, in program order. -/
def setupEvents (s : Scene) (cam : Option (Camera × Transform)) :
    List RenderEvent :=
  [RenderEvent.updateAmbient s.ambient,
   RenderEvent.updateCameraPosition (camPosGlobal cam),
   RenderEvent.updateFragmentArgs (fragmentArgs s),
   RenderEvent.updatePointLights (uploadTruncated 128 (pointLights s)),
   RenderEvent.updateDirectionalLights
     (uploadTruncated 16 (directionalLights s))]

/-- cgmath `SquareMatrix::invert` over exact arithmetic: the inverse when
the determinant is nonzero, `none` on a singular matrix. -/
def invert (m : Mat4) : Option Mat4 :=
  if m.det = 0 then none else some (m.det⁻¹ • m.adjugate)

/-- The per-draw VertexArgs: the camera projection and inverted camera
transform when a camera resolved (the `unwrap` on inversion is `none`),
identity projection and view otherwise. -/
def vertexArgsFor (cam : Option (Camera × Transform)) (model : Mat4) :
    Option VertexArgs :=
  match cam with
  | some (c, t) =>
      (invert t.matrix).map fun v =>
        { proj := c.proj, view := v, model := model }
  | none => some { proj := 1, view := 1, model := model }

/-- Texture resolution: the entity texture when its handle is loaded, else
the default handle lookup; `none` when both are absent. -/
def resolveTexture (s : Scene) (entityTex defaultTex : TexHandle) :
    Option Texture :=
  match s.texStorage entityTex with
  | some t => some t
  | none => s.texStorage defaultTex

/-- The drawable join `(&mesh, &material, &global)`: entities having mesh
handle, material and transform, in iteration order. -/
def drawables (s : Scene) :
    List (Entity × MeshHandle × Material × Transform) :=
  s.entities.filterMap fun e =>
    match s.meshHandle e, s.material e, s.transform e with
    | some h, some m, some t => some (e, h, m, t)
    | _, _, _ => none

/-- One iteration of the `DrawShaded<V>` (interleaved) entity loop.
`none` is a panic; a skipped entity returns the incoming state with no
events; a drawn entity returns the cleared state and its event list. -/
def interleavedProcessEntity (s : Scene) (cam : Option (Camera × Transform))
    (st : EffectData) (ent : Entity × MeshHandle × Material × Transform) :
    Option (EffectData × List RenderEvent) :=
  match s.meshStorage ent.2.1 with
  | none => some (st, [])
  | some mesh =>
    match mesh.buffer AttrKey.interleavedPNT with
    | none => some (st, [])
    | some vbuf =>
      match vertexArgsFor cam ent.2.2.2.matrix with
      | none => none
      | some va =>
        match resolveTexture s ent.2.2.1.albedo s.materialDefaults.albedo,
              resolveTexture s ent.2.2.1.emission
                s.materialDefaults.emission with
        | some albedo, some emission =>
          some (EffectData.clear,
            [RenderEvent.updateVertexArgs ent.1 va,
             RenderEvent.draw ent.1 mesh.slice
               { textures := st.textures ++ [emission.view, albedo.view],
                 samplers := st.samplers ++ [emission.sampler, albedo.sampler],
                 vertex_bufs := st.vertex_bufs ++ [vbuf] }])
        | _, _ => none

/-- The interleaved entity loop over a list of drawables. -/
def runInterleaved (s : Scene) (cam : Option (Camera × Transform)) :
    EffectData → List (Entity × MeshHandle × Material × Transform) →
    Option (EffectData × List RenderEvent)
  | st, [] => some (st, [])
  | st, ent :: rest =>
    match interleavedProcessEntity s cam st ent with
    | none => none
    | some (st1, evs) =>
      match runInterleaved s cam st1 rest with
      | none => none
      | some (st2, evs2) => some (st2, evs ++ evs2)

/-- A full frame of `DrawShaded::apply` from initial binding state `st`:
the setup uploads followed by the entity loop. -/
def applyInterleaved (s : Scene) (st : EffectData) :
    Option (EffectData × List RenderEvent) :=
  match runInterleaved s (resolveCamera s) st (drawables s) with
  | none => none
  | some (st1, evs) =>
      some (st1, setupEvents s (resolveCamera s) ++ evs)

/-- Result of the separate pass's attribute-binding loop: every queried
buffer pushed, or aborted by a missing attribute with the buffers pushed
so far still in place (the loop `continue`s without clearing). -/
inductive PushResult where
  | aborted (st : EffectData)
  | ok (st : EffectData)
deriving DecidableEq

/-- The separate pass's attribute loop: push each queried vertex buffer in
order; on the first missing attribute abort, keeping prior pushes. -/
def pushVertexBuffers (mesh : Mesh) : List AttrKey → EffectData → PushResult
  | [], st => PushResult.ok st
  | a :: rest, st =>
    match mesh.buffer a with
    | some vbuf =>
        pushVertexBuffers mesh rest
          { st with vertex_bufs := st.vertex_bufs ++ [vbuf] }
    | none => PushResult.aborted st

/-- The attribute queries of the skinning-enabled separate pass. -/
def skinnedAttrs : List AttrKey :=
  [AttrKey.position, AttrKey.normal, AttrKey.texCoord,
   AttrKey.jointIds, AttrKey.jointWeights]

/-- The attribute queries of the separate pass without skinning. -/
def standardAttrs : List AttrKey :=
  [AttrKey.position, AttrKey.normal, AttrKey.texCoord]

/-- The skinning step of the separate entity loop: when skinning is
enabled and the entity has a JointTransforms component, upload its
matrices into the JointTransforms buffer; otherwise leave the buffer
content `jb` as it is and emit no event. -/
def jointStep (skinning : Bool) (s : Scene) (e : Entity) (jb : List Mat4) :
    List Mat4 × List RenderEvent :=
  if skinning then
    match s.joints e with
    | some j =>
        (uploadTruncated 100 j.matrices,
         [RenderEvent.updateJointTransforms e
           (uploadTruncated 100 j.matrices)])
    | none => (jb, [])
  else (jb, [])

/-- One iteration of the `DrawShadedSeparate` entity loop.  `jb` is the
current content of the JointTransforms constant buffer, threaded to model
what a draw reads when no upload refreshes it. -/
def separateProcessEntity (skinning : Bool) (s : Scene)
    (cam : Option (Camera × Transform)) (st : EffectData) (jb : List Mat4)
    (ent : Entity × MeshHandle × Material × Transform) :
    Option (EffectData × List Mat4 × List RenderEvent) :=
  match s.meshStorage ent.2.1 with
  | none => some (st, jb, [])
  | some mesh =>
    match pushVertexBuffers mesh
        (if skinning then skinnedAttrs else standardAttrs) st with
    | PushResult.aborted st1 => some (st1, jb, [])
    | PushResult.ok st1 =>
      match vertexArgsFor cam ent.2.2.2.matrix with
      | none => none
      | some va =>
        match resolveTexture s ent.2.2.1.albedo s.materialDefaults.albedo,
              resolveTexture s ent.2.2.1.emission
                s.materialDefaults.emission with
        | some albedo, some emission =>
          some (EffectData.clear, (jointStep skinning s ent.1 jb).1,
            RenderEvent.updateVertexArgs ent.1 va ::
              (jointStep skinning s ent.1 jb).2 ++
                [RenderEvent.draw ent.1 mesh.slice
                  { textures := st1.textures ++ [emission.view, albedo.view],
                    samplers :=
                      st1.samplers ++ [emission.sampler, albedo.sampler],
                    vertex_bufs := st1.vertex_bufs }])
        | _, _ => none

/-- The separate entity loop over a list of drawables. -/
def runSeparate (skinning : Bool) (s : Scene)
    (cam : Option (Camera × Transform)) :
    EffectData → List Mat4 →
    List (Entity × MeshHandle × Material × Transform) →
    Option (EffectData × List Mat4 × List RenderEvent)
  | st, jb, [] => some (st, jb, [])
  | st, jb, ent :: rest =>
    match separateProcessEntity skinning s cam st jb ent with
    | none => none
    | some (st1, jb1, evs) =>
      match runSeparate skinning s cam st1 jb1 rest with
      | none => none
      | some (st2, jb2, evs2) => some (st2, jb2, evs ++ evs2)

/-- A full frame of `DrawShadedSeparate::apply` from initial binding state
`st` and JointTransforms buffer content `jb`. -/
def applySeparate (skinning : Bool) (s : Scene) (st : EffectData)
    (jb : List Mat4) : Option (EffectData × List Mat4 × List RenderEvent) :=
  match runSeparate skinning s (resolveCamera s) st jb (drawables s) with
  | none => none
  | some (st1, jb1, evs) =>
      some (st1, jb1, setupEvents s (resolveCamera s) ++ evs)

/-- The layout `DrawShadedSeparate::compile` declares: vertex-buffer
attribute slots in order, constant buffers with their array capacities,
globals and texture slots. -/
structure PipelineDescriptor where
  vertexBuffers : List AttrKey
  constantBuffers : List (String × Nat)
  globals : List String
  textures : List String
deriving DecidableEq

/-- `DrawShadedSeparate::compile`: the skinning flag selects the shader
variant, the joint attribute buffers and the JointTransforms block. -/
def compileSeparate (skinning : Bool) : PipelineDescriptor :=
  if skinning then
    { vertexBuffers := skinnedAttrs,
      constantBuffers :=
        [("JointTransforms", 100), ("VertexArgs", 1), ("FragmentArgs", 1),
         ("PointLights", 128), ("DirectionalLights", 16)],
      globals := ["ambient_color", "camera_position"],
      textures := ["emission", "albedo"] }
  else
    { vertexBuffers := standardAttrs,
      constantBuffers :=
        [("VertexArgs", 1), ("FragmentArgs", 1), ("PointLights", 128),
         ("DirectionalLights", 16)],
      globals := ["ambient_color", "camera_position"],
      textures := ["emission", "albedo"] }

/-- Whether the trace contains a draw issued for entity `e`. -/
def hasDraw (e : Entity) (evs : List RenderEvent) : Bool :=
  evs.any fun ev =>
    match ev with
    | RenderEvent.draw e2 _ _ => e2 = e
    | _ => false

/-- Whether the trace contains a JointTransforms upload. -/
def hasJointUpdate (evs : List RenderEvent) : Bool :=
  evs.any fun ev =>
    match ev with
    | RenderEvent.updateJointTransforms _ _ => true
    | _ => false

/-- Whether a light component is tagged as a point light. -/
def isPointLight : Light → Bool
  | Light.point _ => true
  | _ => false

/-- Whether a light component is tagged as a directional light. -/
def isDirectionalLight : Light → Bool
  | Light.directional _ => true
  | _ => false

/-- The draw calls of a trace: issuing entity and bound vertex buffers. -/
def drawBindings (evs : List RenderEvent) : List (Entity × List VBuf) :=
  evs.filterMap fun ev =>
    match ev with
    | RenderEvent.draw e _ d => some (e, d.vertex_bufs)
    | _ => none

/-- Camera selection as the specification words it: (a) the active-camera
entity when it carries both a camera and a transform; (b) otherwise the
first entity in iteration order carrying both; (c) otherwise none. -/
def specCameraSelect (s : Scene) : Option (Camera × Transform) :=
  match s.activeCamera with
  | some e =>
    match s.camera e, s.transform e with
    | some c, some t => some (c, t)
    | _, _ => (joinCamTrans s).head?
  | none => (joinCamTrans s).head?

/-! Concrete scenes used as evaluation inputs. -/

/-- The empty scene: no entities, no resources loaded. -/
def emptyScene : Scene :=
  { entities := [], activeCamera := none, camera := fun _ => none,
    transform := fun _ => none, light := fun _ => none,
    meshHandle := fun _ => none, material := fun _ => none,
    joints := fun _ => none, ambient := (0, 0, 0),
    meshStorage := fun _ => none, texStorage := fun _ => none,
    materialDefaults := { albedo := 0, emission := 0 } }

/-- A scene with two point lights and one directional light. -/
def lightScene : Scene :=
  { emptyScene with
    entities := [0, 1, 2],
    light := fun e =>
      if e = 2 then
        some (Light.directional { color := (1, 1, 1), direction := (0, 0, 1) })
      else
        some (Light.point
          { center := (0, 0, 0), color := (1, 1, 1), intensity := 1 }) }

/-- A scene with 129 point lights and 17 directional lights, exceeding
both capacities. -/
def overflowScene : Scene :=
  { emptyScene with
    entities := List.range 146,
    light := fun e =>
      if e < 129 then
        some (Light.point
          { center := (0, 0, 0), color := (1, 1, 1), intensity := 1 })
      else
        some (Light.directional
          { color := (1, 1, 1), direction := (0, 0, 1) }) }

/-- A scene whose active camera entity 0 has identity projection and
identity world transform. -/
def camScene : Scene :=
  { emptyScene with
    entities := [0],
    activeCamera := some 0,
    camera := fun e => if e = 0 then some { proj := 1 } else none,
    transform := fun e => if e = 0 then some { matrix := 1 } else none }

/-- A mesh exposing only position and normal separate buffers. -/
def meshNoTexCoord : Mesh :=
  { buffer := fun a =>
      match a with
      | AttrKey.position => some 10
      | AttrKey.normal => some 11
      | _ => none,
    slice := 100 }

/-- A mesh exposing the three standard separate buffers. -/
def meshStandard : Mesh :=
  { buffer := fun a =>
      match a with
      | AttrKey.position => some 20
      | AttrKey.normal => some 21
      | AttrKey.texCoord => some 22
      | _ => none,
    slice := 101 }

/-- A mesh exposing all five separate buffers and the interleaved one. -/
def meshSkinned : Mesh :=
  { buffer := fun a =>
      match a with
      | AttrKey.position => some 30
      | AttrKey.normal => some 31
      | AttrKey.texCoord => some 32
      | AttrKey.jointIds => some 33
      | AttrKey.jointWeights => some 34
      | AttrKey.interleavedPNT => some 35,
    slice := 102 }

/-- The material every concrete drawable entity uses: texture handles 5
(albedo) and 6 (emission). -/
def matW : Material := { albedo := 5, emission := 6 }

/-- Texture storage holding handles 5 and 6. -/
def texW : TexHandle → Option Texture := fun h =>
  if h = 5 then some { view := 50, sampler := 51 }
  else if h = 6 then some { view := 60, sampler := 61 }
  else none

/-- A separate-pass scene: entity 0's mesh lacks the texcoord buffer,
entity 1's mesh has all three standard buffers. -/
def leakScene : Scene :=
  { emptyScene with
    entities := [0, 1],
    transform := fun _ => some { matrix := 1 },
    meshHandle := fun e => if e = 0 then some 0 else some 1,
    material := fun _ => some matW,
    meshStorage := fun h =>
      if h = 0 then some meshNoTexCoord else some meshStandard,
    texStorage := texW,
    materialDefaults := matW }

/-- A scene whose single entity 0 has the fully skinned mesh and no
JointTransforms component. -/
def skinScene : Scene :=
  { emptyScene with
    entities := [0],
    transform := fun _ => some { matrix := 1 },
    meshHandle := fun _ => some 0,
    material := fun _ => some matW,
    meshStorage := fun _ => some meshSkinned,
    texStorage := texW,
    materialDefaults := matW }

/-- A scene whose entity 0 is drawable but its albedo handle 7 and the
default albedo handle 8 are both absent from texture storage. -/
def noTexScene : Scene :=
  { emptyScene with
    entities := [0],
    transform := fun _ => some { matrix := 1 },
    meshHandle := fun _ => some 0,
    material := fun _ => some { albedo := 7, emission := 6 },
    meshStorage := fun _ => some meshSkinned,
    texStorage := texW,
    materialDefaults := { albedo := 8, emission := 6 } }

/-! Helper lemmas shared by the claim theorems. -/

theorem filterMap_point_length (ls : List Light) :
    (ls.filterMap fun l =>
      match l with
      | Light.point p =>
          some { position := pad p.center, color := pad p.color,
                 intensity := p.intensity : PointLightPod }
      | _ => none).length = ls.countP isPointLight := by
  induction ls with
  | nil => rfl
  | cons l ls ih =>
      cases l <;>
        simp [List.filterMap_cons, List.countP_cons, isPointLight, ih]

theorem filterMap_directional_length (ls : List Light) :
    (ls.filterMap fun l =>
      match l with
      | Light.directional d =>
          some { color := pad d.color,
                 direction := pad d.direction : DirectionalLightPod }
      | _ => none).length = ls.countP isDirectionalLight := by
  induction ls with
  | nil => rfl
  | cons l ls ih =>
      cases l <;>
        simp [List.filterMap_cons, List.countP_cons, isDirectionalLight, ih]

theorem pointLights_length (s : Scene) :
    (pointLights s).length = (sceneLights s).countP isPointLight :=
  filterMap_point_length (sceneLights s)

theorem directionalLights_length (s : Scene) :
    (directionalLights s).length = (sceneLights s).countP isDirectionalLight :=
  filterMap_directional_length (sceneLights s)

theorem i32ofNat_eq_ofNat (n : Nat) (h : n < 2 ^ 31) : i32ofNat n = n := by
  unfold i32ofNat
  have h2 : n % 2 ^ 32 = n := Nat.mod_eq_of_lt (lt_trans h (by norm_num))
  rw [h2]
  simp only [if_pos h]

/-- C7: for every scene with P point lights and D directional lights,
P ≤ 128 and D ≤ 16, FragmentArgs reports exactly P and D, the packed
sequences hold one Pod per light of the kind, and the upload passes the
packed sequences through whole. -/
theorem fragmentArgs_exact_counts (s : Scene)
    (hp : (sceneLights s).countP isPointLight ≤ 128)
    (hd : (sceneLights s).countP isDirectionalLight ≤ 16) :
    (pointLights s).length = (sceneLights s).countP isPointLight ∧
    (directionalLights s).length =
      (sceneLights s).countP isDirectionalLight ∧
    (fragmentArgs s).point_light_count =
      ((sceneLights s).countP isPointLight : Int) ∧
    (fragmentArgs s).directional_light_count =
      ((sceneLights s).countP isDirectionalLight : Int) ∧
    uploadTruncated 128 (pointLights s) = pointLights s ∧
    uploadTruncated 16 (directionalLights s) = directionalLights s ∧
    RenderEvent.updateFragmentArgs (fragmentArgs s) ∈
      setupEvents s (resolveCamera s) := by
  have hp' := pointLights_length s
  have hd' := directionalLights_length s
  refine ⟨hp', hd', ?_, ?_, ?_, ?_, ?_⟩
  · show i32ofNat (pointLights s).length = _
    rw [hp', i32ofNat_eq_ofNat _ (by omega)]
  · show i32ofNat (directionalLights s).length = _
    rw [hd', i32ofNat_eq_ofNat _ (by omega)]
  · exact List.take_of_length_le (by omega)
  · exact List.take_of_length_le (by omega)
  · simp [setupEvents]

/-- C7 witness: the scene with 2 point lights and 1 directional light. -/
theorem fragmentArgs_exact_counts_witness :
    (sceneLights lightScene).countP isPointLight ≤ 128 ∧
    (sceneLights lightScene).countP isDirectionalLight ≤ 16 ∧
    (fragmentArgs lightScene).point_light_count =
      ((sceneLights lightScene).countP isPointLight : Int) ∧
    (fragmentArgs lightScene).directional_light_count =
      ((sceneLights lightScene).countP isDirectionalLight : Int) :=
  ⟨by decide, by decide,
   (fragmentArgs_exact_counts lightScene (by decide) (by decide)).2.2.1,
   (fragmentArgs_exact_counts lightScene (by decide) (by decide)).2.2.2.1⟩

/-- C1 counterexample: in a scene with 129 point and 17 directional
lights, the counts reported in FragmentArgs are the true counts 129 and
17, not the capacities 128 and 16 the claim asserts. -/
theorem light_count_not_capacity :
    128 < (pointLights overflowScene).length ∧
    16 < (directionalLights overflowScene).length ∧
    (fragmentArgs overflowScene).point_light_count = 129 ∧
    (fragmentArgs overflowScene).point_light_count ≠ 128 ∧
    (fragmentArgs overflowScene).directional_light_count = 17 ∧
    (fragmentArgs overflowScene).directional_light_count ≠ 16 := by
  refine ⟨by decide, by decide, by decide, by decide, by decide, by decide⟩

/-- C1 amended: past capacity the uploaded packed sequence truncates to
the capacity (128 point, 16 directional), while the count reported in
FragmentArgs is the true light count of that kind, not the capacity. -/
theorem light_overflow_truncates_reports_true (s : Scene) :
    (128 < (pointLights s).length → (pointLights s).length < 2 ^ 31 →
      (uploadTruncated 128 (pointLights s)).length = 128 ∧
      (fragmentArgs s).point_light_count = ((pointLights s).length : Int) ∧
      (fragmentArgs s).point_light_count ≠ 128) ∧
    (16 < (directionalLights s).length →
      (directionalLights s).length < 2 ^ 31 →
      (uploadTruncated 16 (directionalLights s)).length = 16 ∧
      (fragmentArgs s).directional_light_count =
        ((directionalLights s).length : Int) ∧
      (fragmentArgs s).directional_light_count ≠ 16) := by
  constructor
  · intro h1 h2
    have he : (fragmentArgs s).point_light_count =
        ((pointLights s).length : Int) := by
      show i32ofNat (pointLights s).length = _
      exact i32ofNat_eq_ofNat _ h2
    refine ⟨?_, he, ?_⟩
    · show (List.take 128 (pointLights s)).length = 128
      rw [List.length_take]
      omega
    · rw [he]
      omega
  · intro h1 h2
    have he : (fragmentArgs s).directional_light_count =
        ((directionalLights s).length : Int) := by
      show i32ofNat (directionalLights s).length = _
      exact i32ofNat_eq_ofNat _ h2
    refine ⟨?_, he, ?_⟩
    · show (List.take 16 (directionalLights s)).length = 16
      rw [List.length_take]
      omega
    · rw [he]
      omega

/-- C1 witness for the amended claim, on the 129-point 17-directional
scene. -/
theorem light_overflow_witness :
    128 < (pointLights overflowScene).length ∧
    (pointLights overflowScene).length < 2 ^ 31 ∧
    16 < (directionalLights overflowScene).length ∧
    (directionalLights overflowScene).length < 2 ^ 31 ∧
    (uploadTruncated 128 (pointLights overflowScene)).length = 128 ∧
    (uploadTruncated 16 (directionalLights overflowScene)).length = 16 :=
  ⟨by decide, by decide, by decide, by decide,
   ((light_overflow_truncates_reports_true overflowScene).1
      (by decide) (by decide)).1,
   ((light_overflow_truncates_reports_true overflowScene).2
      (by decide) (by decide)).1⟩

/-- C4: the camera used by apply is exactly the three-step selection the
spec states, and when no camera resolves the position global is the
origin and every VertexArgs carries identity projection and view. -/
theorem camera_three_step (s : Scene) :
    resolveCamera s = specCameraSelect s ∧
    (resolveCamera s = none →
      camPosGlobal (resolveCamera s) = (0, 0, 0) ∧
      ∀ g : Mat4, vertexArgsFor (resolveCamera s) g =
        some { proj := 1, view := 1, model := g }) := by
  constructor
  · unfold resolveCamera specCameraSelect
    cases s.activeCamera with
    | none => rfl
    | some e =>
        cases h1 : s.camera e <;> cases h2 : s.transform e <;>
          simp [Option.bind, Option.orElse, h1, h2]
  · intro h
    rw [h]
    exact ⟨rfl, fun g => rfl⟩

/-- C4 witness: the empty scene resolves no camera, reports the origin
and uses identity matrices. -/
theorem camera_three_step_witness :
    resolveCamera emptyScene = none ∧
    camPosGlobal (resolveCamera emptyScene) = (0, 0, 0) ∧
    vertexArgsFor (resolveCamera emptyScene) 1 =
      some { proj := 1, view := 1, model := 1 } :=
  ⟨rfl, ((camera_three_step emptyScene).2 rfl).1,
   ((camera_three_step emptyScene).2 rfl).2 1⟩

/-- C8: with a resolved camera, the per-draw VertexArgs computation fails
exactly when the camera transform is singular, and otherwise uploads the
inverse of the camera transform as the view matrix. -/
theorem view_is_transform_inverse (s : Scene) (c : Camera) (t : Transform)
    (g : Mat4) (hres : resolveCamera s = some (c, t)) :
    (vertexArgsFor (resolveCamera s) g = none ↔ t.matrix.det = 0) ∧
    (t.matrix.det ≠ 0 →
      vertexArgsFor (resolveCamera s) g =
        some { proj := c.proj, view := t.matrix⁻¹, model := g }) := by
  rw [hres]
  unfold vertexArgsFor invert
  constructor
  · by_cases h : t.matrix.det = 0 <;> simp [h]
  · intro h
    simp [h, Matrix.inv_def, Ring.inverse_eq_inv]

/-- C8 witness: the scene whose active camera has the identity transform
draws with the inverse identity view and no failure. -/
theorem view_is_transform_inverse_witness :
    resolveCamera camScene = some ({ proj := 1 }, { matrix := 1 }) ∧
    (1 : Mat4).det ≠ 0 ∧
    vertexArgsFor (resolveCamera camScene) 1 =
      some { proj := 1, view := (1 : Mat4)⁻¹, model := 1 } := by
  refine ⟨rfl, by simp, ?_⟩
  exact (view_is_transform_inverse camScene { proj := 1 } { matrix := 1 } 1
    rfl).2 (by simp)

/-- C9: an entity whose mesh handle is not loaded is skipped before any
per-draw work in both pass variants: state and joint buffer untouched, no
events emitted, and the loop continues with the remaining entities. -/
theorem unloaded_mesh_skipped (skinning : Bool) (s : Scene)
    (cam : Option (Camera × Transform)) (st : EffectData) (jb : List Mat4)
    (ent : Entity × MeshHandle × Material × Transform)
    (rest : List (Entity × MeshHandle × Material × Transform))
    (hm : s.meshStorage ent.2.1 = none) :
    interleavedProcessEntity s cam st ent = some (st, []) ∧
    separateProcessEntity skinning s cam st jb ent = some (st, jb, []) ∧
    runInterleaved s cam st (ent :: rest) = runInterleaved s cam st rest ∧
    runSeparate skinning s cam st jb (ent :: rest) =
      runSeparate skinning s cam st jb rest := by
  have h1 : interleavedProcessEntity s cam st ent = some (st, []) := by
    unfold interleavedProcessEntity
    rw [hm]
  have h2 : separateProcessEntity skinning s cam st jb ent =
      some (st, jb, []) := by
    unfold separateProcessEntity
    rw [hm]
  refine ⟨h1, h2, ?_, ?_⟩
  · simp only [runInterleaved, h1]
    cases hr : runInterleaved s cam st rest with
    | none => rfl
    | some r => cases r; simp
  · simp only [runSeparate, h2]
    cases hr : runSeparate skinning s cam st jb rest with
    | none => rfl
    | some r => cases r; simp

/-- C9 witness: the empty scene loads no mesh, so a drawable entity over
it is skipped and the loop reduces to the rest of the list. -/
theorem unloaded_mesh_skipped_witness :
    emptyScene.meshStorage 0 = none ∧
    interleavedProcessEntity emptyScene none EffectData.clear
      (0, 0, matW, { matrix := 1 }) = some (EffectData.clear, []) ∧
    runSeparate false emptyScene none EffectData.clear []
      [(0, 0, matW, { matrix := 1 })] =
    runSeparate false emptyScene none EffectData.clear [] [] := by
  have h := unloaded_mesh_skipped false emptyScene none EffectData.clear []
    (0, 0, matW, { matrix := 1 }) [] rfl
  exact ⟨rfl, h.1, h.2.2.2⟩

theorem resolveTexture_entity (s : Scene) (a d : TexHandle) (tex : Texture)
    (h : s.texStorage a = some tex) : resolveTexture s a d = some tex := by
  unfold resolveTexture
  rw [h]

theorem resolveTexture_default (s : Scene) (a d : TexHandle)
    (h : s.texStorage a = none) :
    resolveTexture s a d = s.texStorage d := by
  unfold resolveTexture
  rw [h]

theorem resolveTexture_none_iff (s : Scene) (a d : TexHandle) :
    resolveTexture s a d = none ↔
      s.texStorage a = none ∧ s.texStorage d = none := by
  unfold resolveTexture
  cases h : s.texStorage a <;> simp [h]

/-- C5: a drawn entity binds its own albedo when its handle is loaded and
the scene default otherwise, emission symmetrically; the per-entity step
panics exactly when some slot has both the entity texture and the default
absent. -/
theorem material_fallback_resolution (s : Scene)
    (cam : Option (Camera × Transform)) (st : EffectData)
    (ent : Entity × MeshHandle × Material × Transform)
    (mesh : Mesh) (vbuf : VBuf) (va : VertexArgs)
    (hm : s.meshStorage ent.2.1 = some mesh)
    (hv : mesh.buffer AttrKey.interleavedPNT = some vbuf)
    (hva : vertexArgsFor cam ent.2.2.2.matrix = some va) :
    (∀ tex, s.texStorage ent.2.2.1.albedo = some tex →
      resolveTexture s ent.2.2.1.albedo s.materialDefaults.albedo =
        some tex) ∧
    (s.texStorage ent.2.2.1.albedo = none →
      resolveTexture s ent.2.2.1.albedo s.materialDefaults.albedo =
        s.texStorage s.materialDefaults.albedo) ∧
    (∀ tex, s.texStorage ent.2.2.1.emission = some tex →
      resolveTexture s ent.2.2.1.emission s.materialDefaults.emission =
        some tex) ∧
    (s.texStorage ent.2.2.1.emission = none →
      resolveTexture s ent.2.2.1.emission s.materialDefaults.emission =
        s.texStorage s.materialDefaults.emission) ∧
    (resolveTexture s ent.2.2.1.albedo s.materialDefaults.albedo = none ↔
      s.texStorage ent.2.2.1.albedo = none ∧
      s.texStorage s.materialDefaults.albedo = none) ∧
    (interleavedProcessEntity s cam st ent = none ↔
      (resolveTexture s ent.2.2.1.albedo s.materialDefaults.albedo = none ∨
       resolveTexture s ent.2.2.1.emission
         s.materialDefaults.emission = none)) ∧
    (∀ albedo emission,
      resolveTexture s ent.2.2.1.albedo s.materialDefaults.albedo =
        some albedo →
      resolveTexture s ent.2.2.1.emission s.materialDefaults.emission =
        some emission →
      interleavedProcessEntity s cam st ent =
        some (EffectData.clear,
          [RenderEvent.updateVertexArgs ent.1 va,
           RenderEvent.draw ent.1 mesh.slice
             { textures := st.textures ++ [emission.view, albedo.view],
               samplers := st.samplers ++ [emission.sampler, albedo.sampler],
               vertex_bufs := st.vertex_bufs ++ [vbuf] }])) := by
  refine ⟨fun tex h => resolveTexture_entity s _ _ tex h,
    fun h => resolveTexture_default s _ _ h,
    fun tex h => resolveTexture_entity s _ _ tex h,
    fun h => resolveTexture_default s _ _ h,
    resolveTexture_none_iff s _ _, ?_, ?_⟩
  · unfold interleavedProcessEntity
    simp only [hm, hv, hva]
    cases h1 : resolveTexture s ent.2.2.1.albedo s.materialDefaults.albedo <;>
      cases h2 : resolveTexture s ent.2.2.1.emission
        s.materialDefaults.emission <;> simp
  · intro albedo emission h1 h2
    unfold interleavedProcessEntity
    simp only [hm, hv, hva, h1, h2]

/-- C5 witness: an entity whose albedo handle and the default albedo are
both absent makes the per-entity step fail; its resolution obeys the
fallback rule. -/
theorem material_fallback_resolution_witness :
    noTexScene.meshStorage 0 = some meshSkinned ∧
    meshSkinned.buffer AttrKey.interleavedPNT = some 35 ∧
    vertexArgsFor none (1 : Mat4) =
      some { proj := 1, view := 1, model := 1 } ∧
    interleavedProcessEntity noTexScene none EffectData.clear
      (0, 0, { albedo := 7, emission := 6 }, { matrix := 1 }) = none := by
  have h := material_fallback_resolution noTexScene none EffectData.clear
    (0, 0, { albedo := 7, emission := 6 }, { matrix := 1 })
    meshSkinned 35 { proj := 1, view := 1, model := 1 } rfl rfl rfl
  exact ⟨rfl, rfl, rfl,
    (h.2.2.2.2.2.1).mpr (Or.inl ((h.2.2.2.2.1).mpr ⟨rfl, rfl⟩))⟩

/-- C10: with skinning enabled, an entity exposing both joint buffers but
carrying no JointTransforms component is still drawn, and the
JointTransforms constant buffer keeps its previous contents. -/
theorem skinned_entity_without_joints (s : Scene)
    (cam : Option (Camera × Transform)) (st : EffectData) (jb : List Mat4)
    (ent : Entity × MeshHandle × Material × Transform) (mesh : Mesh)
    (st1 : EffectData) (va : VertexArgs) (albedo emission : Texture)
    (hm : s.meshStorage ent.2.1 = some mesh)
    (hpush : pushVertexBuffers mesh skinnedAttrs st = PushResult.ok st1)
    (hj : s.joints ent.1 = none)
    (hva : vertexArgsFor cam ent.2.2.2.matrix = some va)
    (halb : resolveTexture s ent.2.2.1.albedo s.materialDefaults.albedo =
      some albedo)
    (hemi : resolveTexture s ent.2.2.1.emission
      s.materialDefaults.emission = some emission) :
    (separateProcessEntity true s cam st jb ent).map
      (fun r => (r.1, r.2.1, hasDraw ent.1 r.2.2, hasJointUpdate r.2.2)) =
      some (EffectData.clear, jb, true, false) := by
  unfold separateProcessEntity
  simp only [hm, if_true, hpush, hva, halb, hemi]
  simp [jointStep, hj, hasDraw, hasJointUpdate]

/-- C10 witness: the skinned-mesh scene whose entity has no joint
transforms draws and leaves the joint buffer holding its old matrix. -/
theorem skinned_entity_without_joints_witness :
    skinScene.joints 0 = none ∧
    (separateProcessEntity true skinScene none EffectData.clear [1]
        (0, 0, matW, { matrix := 1 })).map
      (fun r => (r.1, r.2.1, hasDraw 0 r.2.2, hasJointUpdate r.2.2)) =
      some (EffectData.clear, [1], true, false) :=
  ⟨rfl, skinned_entity_without_joints skinScene none EffectData.clear [1]
    (0, 0, matW, { matrix := 1 }) meshSkinned
    { textures := [], samplers := [], vertex_bufs := [30, 31, 32, 33, 34] }
    { proj := 1, view := 1, model := 1 }
    { view := 50, sampler := 51 } { view := 60, sampler := 61 }
    rfl rfl rfl rfl rfl rfl⟩

theorem pushVertexBuffers_ok_isSome (mesh : Mesh) :
    ∀ (attrs : List AttrKey) (st st1 : EffectData),
      pushVertexBuffers mesh attrs st = PushResult.ok st1 →
      ∀ a ∈ attrs, (mesh.buffer a).isSome := by
  intro attrs
  induction attrs with
  | nil =>
      intro st st1 h a ha
      exact absurd ha (List.not_mem_nil a)
  | cons b rest ih =>
      intro st st1 h a ha
      revert h
      unfold pushVertexBuffers
      cases hb : mesh.buffer b with
      | none => intro h; cases h
      | some v =>
          intro h
          rcases List.mem_cons.mp ha with rfl | ha2
          · simp [hb]
          · exact ih _ _ h a ha2

theorem pushVertexBuffers_ok_bufs (mesh : Mesh) :
    ∀ (attrs : List AttrKey) (st st1 : EffectData),
      pushVertexBuffers mesh attrs st = PushResult.ok st1 →
      st1.textures = st.textures ∧ st1.samplers = st.samplers ∧
      st1.vertex_bufs = st.vertex_bufs ++ attrs.filterMap mesh.buffer := by
  intro attrs
  induction attrs with
  | nil =>
      intro st st1 h
      cases h
      simp
  | cons b rest ih =>
      intro st st1 h
      revert h
      unfold pushVertexBuffers
      cases hb : mesh.buffer b with
      | none => intro h; cases h
      | some v =>
          intro h
          have h2 := ih _ _ h
          simp only [List.filterMap_cons, hb] at h2 ⊢
          refine ⟨h2.1, h2.2.1, ?_⟩
          rw [h2.2.2]
          simp

theorem pushVertexBuffers_ok_of_isSome (mesh : Mesh) :
    ∀ (attrs : List AttrKey) (st : EffectData),
      (∀ a ∈ attrs, (mesh.buffer a).isSome) →
      ∃ st1, pushVertexBuffers mesh attrs st = PushResult.ok st1 := by
  intro attrs
  induction attrs with
  | nil => intro st _; exact ⟨st, rfl⟩
  | cons b rest ih =>
      intro st hall
      have hb := hall b (List.mem_cons_self b rest)
      cases hbv : mesh.buffer b with
      | none => rw [hbv] at hb; cases hb
      | some v =>
          have ⟨st1, h1⟩ :=
            ih { st with vertex_bufs := st.vertex_bufs ++ [v] }
              (fun a ha => hall a (List.mem_cons_of_mem b ha))
          refine ⟨st1, ?_⟩
          unfold pushVertexBuffers
          rw [hbv]
          exact h1

theorem pushVertexBuffers_aborted_of_missing (mesh : Mesh) :
    ∀ (attrs : List AttrKey) (st : EffectData),
      (∃ a ∈ attrs, mesh.buffer a = none) →
      ∃ st1, pushVertexBuffers mesh attrs st = PushResult.aborted st1 := by
  intro attrs
  induction attrs with
  | nil =>
      intro st h
      obtain ⟨a, ha, _⟩ := h
      exact absurd ha (List.not_mem_nil a)
  | cons b rest ih =>
      intro st h
      cases hbv : mesh.buffer b with
      | none =>
          refine ⟨st, ?_⟩
          unfold pushVertexBuffers
          rw [hbv]
      | some v =>
          obtain ⟨a, ha, hnone⟩ := h
          rcases List.mem_cons.mp ha with rfl | ha2
          · rw [hbv] at hnone; cases hnone
          · have ⟨st1, h1⟩ :=
              ih { st with vertex_bufs := st.vertex_bufs ++ [v] } ⟨a, ha2, hnone⟩
            refine ⟨st1, ?_⟩
            unfold pushVertexBuffers
            rw [hbv]
            exact h1

/-- C6: the skinning flag fixed at construction controls everything
joint-related: with skinning the pipeline declares the joint attribute
buffers and the capacity-100 JointTransforms block and a drawn mesh must
expose both joint buffers; without skinning none of these is declared,
the joint buffer is never read or updated, and draws bind exactly the
three standard attribute buffers. -/
theorem skinning_flag_controls_joints (s : Scene)
    (cam : Option (Camera × Transform)) (st : EffectData) (jb : List Mat4)
    (ent : Entity × MeshHandle × Material × Transform) (mesh : Mesh)
    (hm : s.meshStorage ent.2.1 = some mesh) :
    (AttrKey.jointIds ∈ (compileSeparate true).vertexBuffers ∧
     AttrKey.jointWeights ∈ (compileSeparate true).vertexBuffers ∧
     ("JointTransforms", 100) ∈ (compileSeparate true).constantBuffers) ∧
    (AttrKey.jointIds ∉ (compileSeparate false).vertexBuffers ∧
     AttrKey.jointWeights ∉ (compileSeparate false).vertexBuffers ∧
     (∀ cap : Nat,
       ("JointTransforms", cap) ∉ (compileSeparate false).constantBuffers)) ∧
    ((separateProcessEntity true s cam st jb ent).map
        (fun r => hasDraw ent.1 r.2.2) = some true →
      (mesh.buffer AttrKey.jointIds).isSome ∧
      (mesh.buffer AttrKey.jointWeights).isSome) ∧
    (∀ r, separateProcessEntity false s cam st jb ent = some r →
      r.2.1 = jb ∧ hasJointUpdate r.2.2 = false ∧
      ∀ e2 sl d, RenderEvent.draw e2 sl d ∈ r.2.2 →
        d.vertex_bufs = st.vertex_bufs ++
          standardAttrs.filterMap mesh.buffer) := by
  refine ⟨⟨by decide, by decide, by decide⟩,
    ⟨by decide, by decide, fun cap => by simp [compileSeparate]⟩, ?_, ?_⟩
  · intro h
    cases heq : separateProcessEntity true s cam st jb ent with
    | none => rw [heq] at h; cases h
    | some r =>
        rw [heq] at h
        simp only [Option.map_some'] at h
        have hdrawn : hasDraw ent.1 r.2.2 = true := by
          injection h
        revert heq
        unfold separateProcessEntity
        simp only [hm, if_true]
        cases hp : pushVertexBuffers mesh skinnedAttrs st with
        | aborted st2 =>
            intro heq
            injection heq with heq2
            rw [← heq2] at hdrawn
            simp [hasDraw] at hdrawn
        | ok st2 =>
            intro heq
            have hall := pushVertexBuffers_ok_isSome mesh skinnedAttrs st st2 hp
            exact ⟨hall AttrKey.jointIds (by decide),
              hall AttrKey.jointWeights (by decide)⟩
  · intro r heq
    revert heq
    unfold separateProcessEntity
    simp only [hm, if_false, Bool.false_eq_true]
    cases hp : pushVertexBuffers mesh standardAttrs st with
    | aborted st2 =>
        intro heq
        injection heq with heq2
        subst heq2
        simp [hasJointUpdate]
    | ok st2 =>
        cases hva : vertexArgsFor cam ent.2.2.2.matrix with
        | none => intro heq; cases heq
        | some va =>
            cases h1 : resolveTexture s ent.2.2.1.albedo
                s.materialDefaults.albedo with
            | none => intro heq; simp at heq
            | some albedo =>
                cases h2 : resolveTexture s ent.2.2.1.emission
                    s.materialDefaults.emission with
                | none => intro heq; simp at heq
                | some emission =>
                    intro heq
                    simp only [Option.some_inj] at heq
                    subst heq
                    have hb := pushVertexBuffers_ok_bufs mesh standardAttrs
                      st st2 hp
                    refine ⟨rfl, by simp [hasJointUpdate, jointStep], ?_⟩
                    intro e2 sl d hd
                    simp only [jointStep, if_false, Bool.false_eq_true,
                      List.cons_append, List.nil_append,
                      List.mem_cons, List.not_mem_nil, or_false] at hd
                    rcases hd with hd | hd
                    · cases hd
                    · simp only [RenderEvent.draw.injEq] at hd
                      rw [hd.2.2]
                      exact hb.2.2

/-- C6 witness: the skinned scene draws its entity, whose mesh indeed
exposes both joint buffers. -/
theorem skinning_flag_controls_joints_witness :
    skinScene.meshStorage 0 = some meshSkinned ∧
    (separateProcessEntity true skinScene none EffectData.clear []
        (0, 0, matW, { matrix := 1 })).map (fun r => hasDraw 0 r.2.2) =
      some true ∧
    (meshSkinned.buffer AttrKey.jointIds).isSome ∧
    (meshSkinned.buffer AttrKey.jointWeights).isSome := by
  have h := skinning_flag_controls_joints skinScene none EffectData.clear []
    (0, 0, matW, { matrix := 1 }) meshSkinned rfl
  exact ⟨rfl, rfl, h.2.2.1 rfl⟩

/-- C2 evidence: in the separate pass an entity skipped partway through
its attribute check leaks the vertex buffers already pushed — the state
handed to the next entity holds buffers 10 and 11 instead of being clear,
and the next entity's draw binds five vertex buffers instead of three.
The interleaved pass, skipping the same mesh, leaves the state clear. -/
theorem skip_leaks_pushed_bindings :
    (separateProcessEntity false leakScene none EffectData.clear []
        (0, 0, matW, { matrix := 1 })).map (fun r => r.1.vertex_bufs) =
      some [10, 11] ∧
    ([10, 11] : List VBuf) ≠ EffectData.clear.vertex_bufs ∧
    (applySeparate false leakScene EffectData.clear []).map
        (fun r => drawBindings r.2.2) = some [(1, [10, 11, 20, 21, 22])] ∧
    (interleavedProcessEntity leakScene none EffectData.clear
        (0, 0, matW, { matrix := 1 })).map (fun r => r.1) =
      some EffectData.clear := by
  exact ⟨rfl, by decide, rfl, rfl⟩

theorem hasDraw_append (e : Entity) (l1 l2 : List RenderEvent) :
    hasDraw e (l1 ++ l2) = (hasDraw e l1 || hasDraw e l2) := by
  unfold hasDraw
  exact List.any_append

theorem hasDraw_setup (e : Entity) (s : Scene)
    (cam : Option (Camera × Transform)) :
    hasDraw e (setupEvents s cam) = false := rfl

theorem hasDraw_of_mem (e : Entity) (sl : Nat) (d : EffectData)
    (evs : List RenderEvent) (h : RenderEvent.draw e sl d ∈ evs) :
    hasDraw e evs = true := by
  unfold hasDraw
  rw [List.any_eq_true]
  exact ⟨RenderEvent.draw e sl d, h, by simp⟩

theorem hasDraw_eq_false_of_ne (e : Entity) (evs : List RenderEvent)
    (h : ∀ e2 sl d, RenderEvent.draw e2 sl d ∈ evs → e2 ≠ e) :
    hasDraw e evs = false := by
  unfold hasDraw
  rw [List.any_eq_false]
  intro ev hev
  cases ev with
  | updateAmbient v => simp
  | updateCameraPosition v => simp
  | updateFragmentArgs fa => simp
  | updatePointLights ls => simp
  | updateDirectionalLights ls => simp
  | updateVertexArgs e2 va => simp
  | updateJointTransforms e2 ms => simp
  | draw e2 sl d => simpa using h e2 sl d hev

theorem jointStep_no_draw (skinning : Bool) (s : Scene) (e : Entity)
    (jb : List Mat4) (e2 : Entity) (sl : Nat) (d : EffectData) :
    RenderEvent.draw e2 sl d ∈ (jointStep skinning s e jb).2 → False := by
  intro hd
  cases skinning with
  | false => simp [jointStep] at hd
  | true =>
      cases hj : s.joints e with
      | none => simp [jointStep, hj] at hd
      | some j => simp [jointStep, hj] at hd

theorem interleaved_step_skip_or_draw (s : Scene)
    (cam : Option (Camera × Transform)) (st : EffectData)
    (ent : Entity × MeshHandle × Material × Transform)
    (st1 : EffectData) (evs : List RenderEvent) :
    interleavedProcessEntity s cam st ent = some (st1, evs) →
    (st1 = st ∧ evs = [] ∧
      (s.meshStorage ent.2.1 = none ∨
       ∃ mesh, s.meshStorage ent.2.1 = some mesh ∧
         mesh.buffer AttrKey.interleavedPNT = none)) ∨
    (∃ (mesh : Mesh) (vbuf : VBuf) (va : VertexArgs)
        (albedo emission : Texture),
      s.meshStorage ent.2.1 = some mesh ∧
      mesh.buffer AttrKey.interleavedPNT = some vbuf ∧
      st1 = EffectData.clear ∧
      evs = [RenderEvent.updateVertexArgs ent.1 va,
             RenderEvent.draw ent.1 mesh.slice
               { textures := st.textures ++ [emission.view, albedo.view],
                 samplers := st.samplers ++ [emission.sampler, albedo.sampler],
                 vertex_bufs := st.vertex_bufs ++ [vbuf] }]) := by
  intro h
  unfold interleavedProcessEntity at h
  cases hm : s.meshStorage ent.2.1 with
  | none =>
      simp only [hm, Option.some_inj, Prod.mk.injEq] at h
      exact Or.inl ⟨h.1.symm, h.2.symm, Or.inl rfl⟩
  | some mesh =>
      cases hv : mesh.buffer AttrKey.interleavedPNT with
      | none =>
          simp only [hm, hv, Option.some_inj, Prod.mk.injEq] at h
          exact Or.inl ⟨h.1.symm, h.2.symm, Or.inr ⟨mesh, rfl, hv⟩⟩
      | some vbuf =>
          cases hva : vertexArgsFor cam ent.2.2.2.matrix with
          | none =>
              simp only [hm, hv, hva] at h
              exact Option.noConfusion h
          | some va =>
              cases h1 : resolveTexture s ent.2.2.1.albedo
                  s.materialDefaults.albedo with
              | none =>
                  simp only [hm, hv, hva, h1] at h
                  exact Option.noConfusion h
              | some albedo =>
                  cases h2 : resolveTexture s ent.2.2.1.emission
                      s.materialDefaults.emission with
                  | none =>
                      simp only [hm, hv, hva, h1, h2] at h
                      exact Option.noConfusion h
                  | some emission =>
                      simp only [hm, hv, hva, h1, h2, Option.some_inj,
                        Prod.mk.injEq] at h
                      exact Or.inr ⟨mesh, vbuf, va, albedo, emission, rfl, hv,
                        h.1.symm, h.2.symm⟩

theorem interleaved_step_draws_tagged (s : Scene)
    (cam : Option (Camera × Transform)) (st : EffectData)
    (ent : Entity × MeshHandle × Material × Transform)
    (st1 : EffectData) (evs : List RenderEvent)
    (h : interleavedProcessEntity s cam st ent = some (st1, evs)) :
    ∀ e2 sl d, RenderEvent.draw e2 sl d ∈ evs → e2 = ent.1 := by
  rcases interleaved_step_skip_or_draw s cam st ent st1 evs h with
    ⟨_, hevs, _⟩ | ⟨mesh, vbuf, va, albedo, emission, _, _, _, hevs⟩
  · subst hevs
    intro e2 sl d hd
    exact absurd hd (List.not_mem_nil _)
  · subst hevs
    intro e2 sl d hd
    rcases List.mem_cons.mp hd with hd2 | hd2
    · exact absurd hd2 (by simp)
    · rcases List.mem_cons.mp hd2 with hd3 | hd3
      · simp only [RenderEvent.draw.injEq] at hd3
        exact hd3.1
      · exact absurd hd3 (List.not_mem_nil _)

theorem runInterleaved_cons_inv (s : Scene)
    (cam : Option (Camera × Transform)) (st : EffectData)
    (ent : Entity × MeshHandle × Material × Transform)
    (rest : List (Entity × MeshHandle × Material × Transform))
    (r : EffectData × List RenderEvent)
    (h : runInterleaved s cam st (ent :: rest) = some r) :
    ∃ st1 evs1 r2,
      interleavedProcessEntity s cam st ent = some (st1, evs1) ∧
      runInterleaved s cam st1 rest = some r2 ∧
      r = (r2.1, evs1 ++ r2.2) := by
  unfold runInterleaved at h
  cases hp : interleavedProcessEntity s cam st ent with
  | none =>
      simp only [hp] at h
      exact Option.noConfusion h
  | some p =>
      obtain ⟨st1, evs1⟩ := p
      simp only [hp] at h
      cases hr : runInterleaved s cam st1 rest with
      | none =>
          simp only [hr] at h
          exact Option.noConfusion h
      | some r2 =>
          obtain ⟨st2, evs2⟩ := r2
          simp only [hr, Option.some_inj] at h
          exact ⟨st1, evs1, (st2, evs2), rfl, hr, h.symm⟩

theorem runInterleaved_eligible_drawn (s : Scene)
    (cam : Option (Camera × Transform)) :
    ∀ (l : List (Entity × MeshHandle × Material × Transform))
      (st : EffectData) (r : EffectData × List RenderEvent),
      runInterleaved s cam st l = some r →
      ∀ ent ∈ l, ∀ mesh, s.meshStorage ent.2.1 = some mesh →
        (mesh.buffer AttrKey.interleavedPNT).isSome →
        hasDraw ent.1 r.2 = true := by
  intro l
  induction l with
  | nil =>
      intro st r h ent hent
      exact absurd hent (List.not_mem_nil ent)
  | cons ehead rest ih =>
      intro st r h ent hent mesh hm hbuf
      obtain ⟨st1, evs1, r2, hp, hr, hre⟩ :=
        runInterleaved_cons_inv s cam st ehead rest r h
      subst hre
      rcases List.mem_cons.mp hent with rfl | h2
      · rcases interleaved_step_skip_or_draw s cam st ent st1 evs1 hp with
          ⟨_, _, hskip⟩ | ⟨mesh2, vbuf, va, albedo, emission, hm2, hv2, _, hevs⟩
        · rcases hskip with hnone | ⟨mesh2, hm2, hv2⟩
          · rw [hm] at hnone; cases hnone
          · rw [hm] at hm2
            injection hm2 with hmm
            subst hmm
            rw [hv2] at hbuf
            cases hbuf
        · subst hevs
          simp [hasDraw_append, hasDraw]
      · have htail := ih st1 r2 hr ent h2 mesh hm hbuf
        simp [hasDraw_append, htail]

theorem runInterleaved_no_draw (s : Scene)
    (cam : Option (Camera × Transform)) (e : Entity) :
    ∀ (l : List (Entity × MeshHandle × Material × Transform))
      (st : EffectData) (r : EffectData × List RenderEvent),
      runInterleaved s cam st l = some r →
      (∀ ent ∈ l, ent.1 = e →
        ∃ mesh, s.meshStorage ent.2.1 = some mesh ∧
          mesh.buffer AttrKey.interleavedPNT = none) →
      hasDraw e r.2 = false := by
  intro l
  induction l with
  | nil =>
      intro st r h _
      simp only [runInterleaved, Option.some_inj] at h
      rw [← h]
      rfl
  | cons ehead rest ih =>
      intro st r h hcond
      obtain ⟨st1, evs1, r2, hp, hr, hre⟩ :=
        runInterleaved_cons_inv s cam st ehead rest r h
      subst hre
      have htail := ih st1 r2 hr
        (fun ent hent he => hcond ent (List.mem_cons_of_mem _ hent) he)
      have hhead : hasDraw e evs1 = false := by
        by_cases hhe : ehead.1 = e
        · obtain ⟨mesh, hm, hv⟩ := hcond ehead (List.mem_cons_self _ _) hhe
          rcases interleaved_step_skip_or_draw s cam st ehead st1 evs1 hp with
            ⟨_, hevs, _⟩ | ⟨mesh2, vbuf, va, a2, em2, hm2, hv2, _, hevs⟩
          · subst hevs; rfl
          · rw [hm] at hm2
            injection hm2 with hmm
            subst hmm
            rw [hv2] at hv
            cases hv
        · exact hasDraw_eq_false_of_ne e evs1 (fun e2 sl d hd => by
            rw [interleaved_step_draws_tagged s cam st ehead st1 evs1 hp
              e2 sl d hd]
            exact hhe)
      simp [hasDraw_append, hhead, htail]

theorem separate_step_skip_or_draw (skinning : Bool) (s : Scene)
    (cam : Option (Camera × Transform)) (st : EffectData) (jb : List Mat4)
    (ent : Entity × MeshHandle × Material × Transform)
    (st1 : EffectData) (jb1 : List Mat4) (evs : List RenderEvent) :
    separateProcessEntity skinning s cam st jb ent = some (st1, jb1, evs) →
    (evs = [] ∧ jb1 = jb ∧
      (s.meshStorage ent.2.1 = none ∨
       ∃ mesh st2, s.meshStorage ent.2.1 = some mesh ∧
         pushVertexBuffers mesh
           (if skinning then skinnedAttrs else standardAttrs) st =
           PushResult.aborted st2)) ∨
    (∃ mesh st2, s.meshStorage ent.2.1 = some mesh ∧
      pushVertexBuffers mesh
        (if skinning then skinnedAttrs else standardAttrs) st =
        PushResult.ok st2 ∧
      st1 = EffectData.clear ∧
      hasDraw ent.1 evs = true ∧
      (∀ e2 sl d, RenderEvent.draw e2 sl d ∈ evs → e2 = ent.1)) := by
  intro h
  unfold separateProcessEntity at h
  cases hm : s.meshStorage ent.2.1 with
  | none =>
      simp only [hm, Option.some_inj, Prod.mk.injEq] at h
      exact Or.inl ⟨h.2.2.symm, h.2.1.symm, Or.inl rfl⟩
  | some mesh =>
      cases hp : pushVertexBuffers mesh
          (if skinning then skinnedAttrs else standardAttrs) st with
      | aborted st2 =>
          simp only [hm, hp, Option.some_inj, Prod.mk.injEq] at h
          exact Or.inl ⟨h.2.2.symm, h.2.1.symm, Or.inr ⟨mesh, st2, rfl, hp⟩⟩
      | ok st2 =>
          cases hva : vertexArgsFor cam ent.2.2.2.matrix with
          | none =>
              simp only [hm, hp, hva] at h
              exact Option.noConfusion h
          | some va =>
              cases h1 : resolveTexture s ent.2.2.1.albedo
                  s.materialDefaults.albedo with
              | none =>
                  simp only [hm, hp, hva, h1] at h
                  exact Option.noConfusion h
              | some albedo =>
                  cases h2 : resolveTexture s ent.2.2.1.emission
                      s.materialDefaults.emission with
                  | none =>
                      simp only [hm, hp, hva, h1, h2] at h
                      exact Option.noConfusion h
                  | some emission =>
                      simp only [hm, hp, hva, h1, h2, Option.some_inj,
                        Prod.mk.injEq] at h
                      obtain ⟨hst, hjb, hevs⟩ := h
                      refine Or.inr ⟨mesh, st2, rfl, hp, hst.symm, ?_, ?_⟩
                      · rw [← hevs]
                        refine hasDraw_of_mem ent.1 mesh.slice
                          { textures :=
                              st2.textures ++ [emission.view, albedo.view],
                            samplers :=
                              st2.samplers ++
                                [emission.sampler, albedo.sampler],
                            vertex_bufs := st2.vertex_bufs } _ ?_
                        simp
                      · intro e2 sl d hd
                        rw [← hevs] at hd
                        rcases List.mem_cons.mp hd with hd2 | hd2
                        · exact absurd hd2 (by simp)
                        · rcases List.mem_append.mp hd2 with hd3 | hd3
                          · exact (jointStep_no_draw skinning s ent.1 jb
                              e2 sl d hd3).elim
                          · rcases List.mem_cons.mp hd3 with hd4 | hd4
                            · simp only [RenderEvent.draw.injEq] at hd4
                              exact hd4.1
                            · exact absurd hd4 (List.not_mem_nil _)

theorem runSeparate_cons_inv (skinning : Bool) (s : Scene)
    (cam : Option (Camera × Transform)) (st : EffectData) (jb : List Mat4)
    (ent : Entity × MeshHandle × Material × Transform)
    (rest : List (Entity × MeshHandle × Material × Transform))
    (r : EffectData × List Mat4 × List RenderEvent)
    (h : runSeparate skinning s cam st jb (ent :: rest) = some r) :
    ∃ st1 jb1 evs1 r2,
      separateProcessEntity skinning s cam st jb ent =
        some (st1, jb1, evs1) ∧
      runSeparate skinning s cam st1 jb1 rest = some r2 ∧
      r = (r2.1, r2.2.1, evs1 ++ r2.2.2) := by
  unfold runSeparate at h
  cases hp : separateProcessEntity skinning s cam st jb ent with
  | none =>
      simp only [hp] at h
      exact Option.noConfusion h
  | some p =>
      obtain ⟨st1, jb1, evs1⟩ := p
      simp only [hp] at h
      cases hr : runSeparate skinning s cam st1 jb1 rest with
      | none =>
          simp only [hr] at h
          exact Option.noConfusion h
      | some r2 =>
          obtain ⟨st2, jb2, evs2⟩ := r2
          simp only [hr, Option.some_inj] at h
          exact ⟨st1, jb1, evs1, (st2, jb2, evs2), rfl, hr, h.symm⟩

theorem separate_step_draws_tagged (skinning : Bool) (s : Scene)
    (cam : Option (Camera × Transform)) (st : EffectData) (jb : List Mat4)
    (ent : Entity × MeshHandle × Material × Transform)
    (st1 : EffectData) (jb1 : List Mat4) (evs : List RenderEvent)
    (h : separateProcessEntity skinning s cam st jb ent =
      some (st1, jb1, evs)) :
    ∀ e2 sl d, RenderEvent.draw e2 sl d ∈ evs → e2 = ent.1 := by
  rcases separate_step_skip_or_draw skinning s cam st jb ent st1 jb1 evs h
    with ⟨hevs, _, _⟩ | ⟨mesh, st2, _, _, _, _, htag⟩
  · subst hevs
    intro e2 sl d hd
    exact absurd hd (List.not_mem_nil _)
  · exact htag

theorem runSeparate_eligible_drawn (skinning : Bool) (s : Scene)
    (cam : Option (Camera × Transform)) :
    ∀ (l : List (Entity × MeshHandle × Material × Transform))
      (st : EffectData) (jb : List Mat4)
      (r : EffectData × List Mat4 × List RenderEvent),
      runSeparate skinning s cam st jb l = some r →
      ∀ ent ∈ l, ∀ mesh, s.meshStorage ent.2.1 = some mesh →
        (∀ a ∈ (if skinning then skinnedAttrs else standardAttrs),
          (mesh.buffer a).isSome) →
        hasDraw ent.1 r.2.2 = true := by
  intro l
  induction l with
  | nil =>
      intro st jb r h ent hent
      exact absurd hent (List.not_mem_nil ent)
  | cons ehead rest ih =>
      intro st jb r h ent hent mesh hm hbuf
      obtain ⟨st1, jb1, evs1, r2, hp, hr, hre⟩ :=
        runSeparate_cons_inv skinning s cam st jb ehead rest r h
      subst hre
      rcases List.mem_cons.mp hent with rfl | h2
      · rcases separate_step_skip_or_draw skinning s cam st jb ent st1 jb1
            evs1 hp with ⟨_, _, hskip⟩ | ⟨mesh2, st2, hm2, _, _, hdrawn, _⟩
        · rcases hskip with hnone | ⟨mesh2, st2, hm2, habort⟩
          · rw [hm] at hnone; cases hnone
          · rw [hm] at hm2
            injection hm2 with hmm
            subst hmm
            obtain ⟨st3, hok⟩ :=
              pushVertexBuffers_ok_of_isSome mesh
                (if skinning then skinnedAttrs else standardAttrs) st hbuf
            rw [habort] at hok
            cases hok
        · simp [hasDraw_append, hdrawn]
      · have htail := ih st1 jb1 r2 hr ent h2 mesh hm hbuf
        simp [hasDraw_append, htail]

theorem runSeparate_no_draw (skinning : Bool) (s : Scene)
    (cam : Option (Camera × Transform)) (e : Entity) :
    ∀ (l : List (Entity × MeshHandle × Material × Transform))
      (st : EffectData) (jb : List Mat4)
      (r : EffectData × List Mat4 × List RenderEvent),
      runSeparate skinning s cam st jb l = some r →
      (∀ ent ∈ l, ent.1 = e →
        ∃ mesh a, s.meshStorage ent.2.1 = some mesh ∧
          a ∈ (if skinning then skinnedAttrs else standardAttrs) ∧
          mesh.buffer a = none) →
      hasDraw e r.2.2 = false := by
  intro l
  induction l with
  | nil =>
      intro st jb r h _
      simp only [runSeparate, Option.some_inj] at h
      rw [← h]
      rfl
  | cons ehead rest ih =>
      intro st jb r h hcond
      obtain ⟨st1, jb1, evs1, r2, hp, hr, hre⟩ :=
        runSeparate_cons_inv skinning s cam st jb ehead rest r h
      subst hre
      have htail := ih st1 jb1 r2 hr
        (fun ent hent he => hcond ent (List.mem_cons_of_mem _ hent) he)
      have hhead : hasDraw e evs1 = false := by
        by_cases hhe : ehead.1 = e
        · obtain ⟨mesh, a, hm, ha, hv⟩ :=
            hcond ehead (List.mem_cons_self _ _) hhe
          rcases separate_step_skip_or_draw skinning s cam st jb ehead st1
              jb1 evs1 hp with ⟨hevs, _, _⟩ |
              ⟨mesh2, st2, hm2, hok, _, _, _⟩
          · subst hevs; rfl
          · rw [hm] at hm2
            injection hm2 with hmm
            subst hmm
            have := pushVertexBuffers_ok_isSome mesh _ st st2 hok a ha
            rw [hv] at this
            cases this
        · exact hasDraw_eq_false_of_ne e evs1 (fun e2 sl d hd => by
            rw [separate_step_draws_tagged skinning s cam st jb ehead st1
              jb1 evs1 hp e2 sl d hd]
            exact hhe)
      simp [hasDraw_append, hhead, htail]

theorem applyInterleaved_run (s : Scene) (st : EffectData)
    (r : EffectData × List RenderEvent)
    (h : applyInterleaved s st = some r) :
    ∃ r2, runInterleaved s (resolveCamera s) st (drawables s) = some r2 ∧
      r = (r2.1, setupEvents s (resolveCamera s) ++ r2.2) := by
  revert h
  unfold applyInterleaved
  cases hr : runInterleaved s (resolveCamera s) st (drawables s) with
  | none => intro h; cases h
  | some r2 =>
      obtain ⟨st2, evs2⟩ := r2
      intro h
      simp only [Option.some_inj] at h
      exact ⟨(st2, evs2), rfl, h.symm⟩

theorem applySeparate_run (skinning : Bool) (s : Scene) (st : EffectData)
    (jb : List Mat4) (r : EffectData × List Mat4 × List RenderEvent)
    (h : applySeparate skinning s st jb = some r) :
    ∃ r2, runSeparate skinning s (resolveCamera s) st jb (drawables s) =
        some r2 ∧
      r = (r2.1, r2.2.1, setupEvents s (resolveCamera s) ++ r2.2.2) := by
  revert h
  unfold applySeparate
  cases hr : runSeparate skinning s (resolveCamera s) st jb (drawables s)
    with
  | none => intro h; cases h
  | some r2 =>
      obtain ⟨st2, jb2, evs2⟩ := r2
      intro h
      simp only [Option.some_inj] at h
      exact ⟨(st2, jb2, evs2), rfl, h.symm⟩

/-- C3: in a completed frame of either pass variant, an entity whose
loaded mesh lacks a required attribute buffer gets zero draw calls while
every entity whose mesh has all required buffers is drawn; the skip
itself cannot abort the frame, as the skipping step still succeeds. -/
theorem missing_attribute_entity_skipped (skinning : Bool) (s : Scene)
    (st : EffectData) (jb : List Mat4) (e : Entity)
    (hI : (applyInterleaved s st).isSome)
    (hS : (applySeparate skinning s st jb).isSome) :
    ((∀ ent ∈ drawables s, ent.1 = e →
        ∃ mesh, s.meshStorage ent.2.1 = some mesh ∧
          mesh.buffer AttrKey.interleavedPNT = none) →
      (applyInterleaved s st).map (fun r => hasDraw e r.2) = some false) ∧
    (∀ ent ∈ drawables s, ∀ mesh, s.meshStorage ent.2.1 = some mesh →
      (mesh.buffer AttrKey.interleavedPNT).isSome →
      (applyInterleaved s st).map (fun r => hasDraw ent.1 r.2) =
        some true) ∧
    (∀ ent mesh, s.meshStorage ent.2.1 = some mesh →
      mesh.buffer AttrKey.interleavedPNT = none →
      interleavedProcessEntity s (resolveCamera s) st ent =
        some (st, [])) ∧
    ((∀ ent ∈ drawables s, ent.1 = e →
        ∃ mesh a, s.meshStorage ent.2.1 = some mesh ∧
          a ∈ (if skinning then skinnedAttrs else standardAttrs) ∧
          mesh.buffer a = none) →
      (applySeparate skinning s st jb).map (fun r => hasDraw e r.2.2) =
        some false) ∧
    (∀ ent ∈ drawables s, ∀ mesh, s.meshStorage ent.2.1 = some mesh →
      (∀ a ∈ (if skinning then skinnedAttrs else standardAttrs),
        (mesh.buffer a).isSome) →
      (applySeparate skinning s st jb).map (fun r => hasDraw ent.1 r.2.2) =
        some true) ∧
    (∀ ent mesh, s.meshStorage ent.2.1 = some mesh →
      (∃ a ∈ (if skinning then skinnedAttrs else standardAttrs),
        mesh.buffer a = none) →
      ∃ st1, separateProcessEntity skinning s (resolveCamera s) st jb ent =
        some (st1, jb, [])) := by
  obtain ⟨rI, hrI⟩ := Option.isSome_iff_exists.mp hI
  obtain ⟨rS, hrS⟩ := Option.isSome_iff_exists.mp hS
  obtain ⟨rI2, hrunI, hreI⟩ := applyInterleaved_run s st rI hrI
  obtain ⟨rS2, hrunS, hreS⟩ := applySeparate_run skinning s st jb rS hrS
  refine ⟨?_, ?_, ?_, ?_, ?_, ?_⟩
  · intro hcond
    rw [hrI]
    have := runInterleaved_no_draw s (resolveCamera s) e (drawables s) st
      rI2 hrunI hcond
    subst hreI
    simp [hasDraw_append, hasDraw_setup, this]
  · intro ent hent mesh hm hbuf
    rw [hrI]
    have := runInterleaved_eligible_drawn s (resolveCamera s) (drawables s)
      st rI2 hrunI ent hent mesh hm hbuf
    subst hreI
    simp [hasDraw_append, hasDraw_setup, this]
  · intro ent mesh hm hv
    unfold interleavedProcessEntity
    simp only [hm, hv]
  · intro hcond
    rw [hrS]
    have := runSeparate_no_draw skinning s (resolveCamera s) e (drawables s)
      st jb rS2 hrunS hcond
    subst hreS
    simp [hasDraw_append, hasDraw_setup, this]
  · intro ent hent mesh hm hbuf
    rw [hrS]
    have := runSeparate_eligible_drawn skinning s (resolveCamera s)
      (drawables s) st jb rS2 hrunS ent hent mesh hm hbuf
    subst hreS
    simp [hasDraw_append, hasDraw_setup, this]
  · intro ent mesh hm hmiss
    obtain ⟨st1, habort⟩ :=
      pushVertexBuffers_aborted_of_missing mesh
        (if skinning then skinnedAttrs else standardAttrs) st hmiss
    refine ⟨st1, ?_⟩
    unfold separateProcessEntity
    simp only [hm, habort]

/-- C3 witness: in the separate-pass scene whose entity 0 lacks the
texcoord buffer, the frame completes, entity 0 gets no draw call and
entity 1 is still drawn. -/
theorem missing_attribute_entity_skipped_witness :
    (applySeparate false leakScene EffectData.clear []).isSome ∧
    (applySeparate false leakScene EffectData.clear []).map
      (fun r => hasDraw 0 r.2.2) = some false ∧
    (applySeparate false leakScene EffectData.clear []).map
      (fun r => hasDraw 1 r.2.2) = some true := by
  have hdr : drawables leakScene =
      [(0, 0, matW, { matrix := 1 }), (1, 1, matW, { matrix := 1 })] := rfl
  have h := missing_attribute_entity_skipped false leakScene
    EffectData.clear [] 0 rfl rfl
  refine ⟨rfl, ?_, ?_⟩
  · refine h.2.2.2.1 ?_
    intro ent hent he
    rw [hdr] at hent
    simp only [List.mem_cons, List.not_mem_nil, or_false] at hent
    rcases hent with rfl | rfl
    · exact ⟨meshNoTexCoord, AttrKey.texCoord, rfl, by decide, rfl⟩
    · cases he
  · refine h.2.2.2.2.1 (1, 1, matW, { matrix := 1 }) ?_ meshStandard rfl
      (by decide)
    rw [hdr]
    simp

end Shaded
